import Mathlib

/-!
Verification of the rusty-renderer repository (a software rasterizer)
against its natural-language specification.

Shallow embedding conventions:

* Rust `f32` values are modelled as exact rationals (`ℚ`).  Every claim
  settled below depends only on comparisons and on arithmetic whose inputs
  in the deciding scenarios are small dyadic rationals, which `f32`
  represents and combines exactly, so the embedding is faithful on the
  domain the claims exercise.  `f32::NEG_INFINITY`, which appears only as
  the initial depth-buffer value, is modelled by a dedicated constructor.
* Rust `i32` values are modelled as `ℤ` and `usize` values as `ℕ`;
  the `as usize` cast of an `i32` is modelled explicitly (sign extension,
  reduction mod 2 ^ 64).  The claims never reach `i32` overflow.
* Code that can panic (slice indexing, `unwrap`, `assert!`, `panic!`)
  is modelled with `Option`/`Except`/an explicit result constructor,
  where `none`/`error` means the panic.
* While loops with a rational counter are translated to structural
  recursion on an explicit iteration budget ("fuel") that is an upper
  bound on the number of iterations derived from the loop bound; the
  fuel-exhaustion base case coincides with the loop-exit result and the
  lemmas below establish the exact iteration counts, showing the budget
  is never exhausted before the loop guard fails.
-/

/-! ## Numeric primitives (casts and rounding of the Rust code) -/

/-- Truncation of a rational toward zero, the rounding used by Rust
`as` casts from floats to integers. -/
def rustTrunc (q : ℚ) : ℤ := if 0 ≤ q then ⌊q⌋ else ⌈q⌉

/-- Model of the Rust `as i32` cast applied to an `f32`: truncate toward
zero and saturate at the `i32` bounds. -/
def rustI32 (q : ℚ) : ℤ := max (-(2 ^ 31)) (min (2 ^ 31 - 1) (rustTrunc q))

/-- Model of `f32::round`: round half away from zero. -/
def rustRound (q : ℚ) : ℤ := if 0 ≤ q then ⌊q + 1 / 2⌋ else ⌈q - 1 / 2⌉

/-- Model of the Rust `as u8` cast applied to an `f32`: truncate toward
zero and saturate to the `[0, 255]` range. -/
def rustU8 (q : ℚ) : ℕ := (max 0 (min 255 (rustTrunc q))).toNat

/-- Model of the Rust `as usize` cast applied to an `i32`: sign-extend
and reinterpret, that is reduce modulo `2 ^ 64`.  Negative indices land
far above any buffer length in use. -/
def usizeOfI32 (v : ℤ) : ℕ := (v % 2 ^ 64).toNat

/-- Model of the `clamp!` macro of src/tga.rs: `a.min(max).max(min)`. -/
def clampQ (a lo hi : ℚ) : ℚ := max lo (min hi a)

/-! ## src/math.rs : vector value types -/

/-- Vec2f of src/math.rs (f32 components modelled as rationals). -/
structure Vec2f where
  x : ℚ
  y : ℚ
deriving DecidableEq

/-- Vec3f of src/math.rs. -/
structure Vec3f where
  x : ℚ
  y : ℚ
  z : ℚ
deriving DecidableEq

instance : Add Vec3f := ⟨fun a b => ⟨a.x + b.x, a.y + b.y, a.z + b.z⟩⟩

instance : Sub Vec3f := ⟨fun a b => ⟨a.x - b.x, a.y - b.y, a.z - b.z⟩⟩

instance : HMul Vec3f ℚ Vec3f := ⟨fun v f => ⟨v.x * f, v.y * f, v.z * f⟩⟩

instance : Add Vec2f := ⟨fun a b => ⟨a.x + b.x, a.y + b.y⟩⟩

instance : Sub Vec2f := ⟨fun a b => ⟨a.x - b.x, a.y - b.y⟩⟩

instance : HMul Vec2f ℚ Vec2f := ⟨fun v f => ⟨v.x * f, v.y * f⟩⟩

/-! ## src/tga.rs : colors, pixels and the image -/

/-- RgbaColor of src/tga.rs: four f32 channels. -/
structure RgbaColor where
  r : ℚ
  g : ℚ
  b : ℚ
  a : ℚ
deriving DecidableEq

/-- RgbaColor::new_from_u8. -/
def RgbaColor.new_from_u8 (r g b a : ℕ) : RgbaColor :=
  ⟨(r : ℚ) / 255, (g : ℚ) / 255, (b : ℚ) / 255, (a : ℚ) / 255⟩

/-- RgbaColor::clamp: clamp every channel to `[0, 1]`. -/
def RgbaColor.clamp (c : RgbaColor) : RgbaColor :=
  ⟨clampQ c.r 0 1, clampQ c.g 0 1, clampQ c.b 0 1, clampQ c.a 0 1⟩

/-- the `impl Mul<f32> for RgbaColor`: scale r, g and b, keep a, then
clamp every channel. -/
def RgbaColor.mulScalar (c : RgbaColor) (rhs : ℚ) : RgbaColor :=
  RgbaColor.clamp ⟨c.r * rhs, c.g * rhs, c.b * rhs, c.a⟩

/-- TgaPixel of src/tga.rs: four u8 channels. -/
structure TgaPixel where
  r : ℕ
  g : ℕ
  b : ℕ
  a : ℕ
deriving DecidableEq

/-- TgaPixel::set_color: the stored pixel after the call, a function of
the new color only (the method overwrites all four channels). -/
def TgaPixel.set_color (color : RgbaColor) : TgaPixel :=
  let c := color.clamp
  ⟨rustU8 (c.r * 255), rustU8 (c.g * 255), rustU8 (c.b * 255), rustU8 (c.a * 255)⟩

/-- TgaPixel::get_color. -/
def TgaPixel.get_color (p : TgaPixel) : RgbaColor :=
  RgbaColor.new_from_u8 p.r p.g p.b p.a

/-- TgaImage of src/tga.rs. -/
structure TgaImage where
  width : ℤ
  height : ℤ
  pixels : List TgaPixel
deriving DecidableEq

/-- TgaImage::new.  The two `assert!` calls on non-positive dimensions
are modelled as `Except.error`. -/
def TgaImage.new (width height : ℤ) : Except Unit TgaImage :=
  if 0 < width ∧ 0 < height then
    Except.ok ⟨width, height, List.replicate (width * height).toNat ⟨0, 0, 0, 0⟩⟩
  else Except.error ()

/-- TgaImage::set_pixel: look up slot `(x + height * y) as usize`;
mutate it when present, silently return when absent. -/
def TgaImage.set_pixel (img : TgaImage) (x y : ℤ) (color : RgbaColor) : TgaImage :=
  match img.pixels[usizeOfI32 (x + img.height * y)]? with
  | some _ =>
      let px := img.pixels.set (usizeOfI32 (x + img.height * y)) (TgaPixel.set_color color)
      { img with pixels := px }
  | none => img

/-- TgaImage::get_pixel: look up slot `(x + height * y) as usize`;
`none` models the `panic!` on a missing slot. -/
def TgaImage.get_pixel (img : TgaImage) (x y : ℤ) : Option RgbaColor :=
  match img.pixels[usizeOfI32 (x + img.height * y)]? with
  | some pixel => some pixel.get_color
  | none => none

/-! ## src/tga.rs : serialization (write_to_file) and deserialization
(new_from_file).  Files are modelled as byte lists; every `unwrap` on an
exhausted stream and every `panic!` is `Except.error ()`. -/

/-- TgaImage::write_to_file, restricted to the bytes it writes: the
18-byte type-2 (uncompressed, 24 bpp) header followed by the pixel data
as raw b, g, r triples.  The file-creation step is outside the model. -/
def TgaImage.write_data (img : TgaImage) : List ℕ :=
  [0, 0, 2, 0, 0, 0, 0, 0, 0, 0, 0, 0]
    ++ [(img.width % 256).toNat, ((img.width / 256) % 256).toNat,
        (img.height % 256).toNat, ((img.height / 256) % 256).toNat, 24, 0]
    ++ img.pixels.flatMap (fun p => [p.b, p.g, p.r])

/-- the inner `for _ in 0..count` of the RLE branch of
TgaImage::new_from_file: repeat one color `count` times, advancing the
running pixel counter.  Consumes no further bytes. -/
def setRleRun (img : TgaImage) (width : ℤ) (pixel : ℤ) (count : ℕ)
    (c : RgbaColor) : TgaImage × ℤ :=
  match count with
  | 0 => (img, pixel)
  | n + 1 =>
      setRleRun (img.set_pixel (pixel % width) (pixel / width) c) width (pixel + 1) n c

/-- the inner `for _ in 0..count` of the raw branch of
TgaImage::new_from_file: read `count` b, g, r triples from the stream;
a missing byte is an `unwrap` panic. -/
def readRawRun (img : TgaImage) (width : ℤ) (pixel : ℤ) (count : ℕ)
    (bytes : List ℕ) : Except Unit (TgaImage × ℤ × List ℕ) :=
  match count with
  | 0 => Except.ok (img, pixel, bytes)
  | n + 1 =>
      match bytes with
      | b :: g :: r :: rest =>
          readRawRun (img.set_pixel (pixel % width) (pixel / width)
            (RgbaColor.new_from_u8 r g b 255)) width (pixel + 1) n rest
      | _ => Except.error ()
  termination_by count

/-- the `while pixel < width * height` packet loop of
TgaImage::new_from_file.  Every iteration consumes at least the packet
byte, so a fuel of one more than the stream length is never exhausted;
at fuel zero with the guard still true the stream is empty and the
`unwrap` of the packet byte panics, which the base case mirrors. -/
def readPixelsGo : ℕ → TgaImage → ℤ → ℤ → ℤ → List ℕ → Except Unit TgaImage
  | fuel, img, w, h, pixel, bytes =>
    if pixel < w * h then
      match fuel, bytes with
      | _, [] => Except.error ()
      | 0, _ :: _ => Except.error ()
      | fuel + 1, packet :: rest =>
        let count := (packet &&& 127) + 1
        if packet &&& 128 > 0 then
          match rest with
          | b :: g :: r :: rest2 =>
              let run := setRleRun img w pixel count (RgbaColor.new_from_u8 r g b 255)
              readPixelsGo fuel run.1 w h run.2 rest2
          | _ => Except.error ()
        else
          match readRawRun img w pixel count rest with
          | Except.error e => Except.error e
          | Except.ok (img2, pixel2, rest2) => readPixelsGo fuel img2 w h pixel2 rest2
    else Except.ok img

/-- TgaImage::new_from_file on a byte stream: parse the 18 header bytes
(each a `next().unwrap()`), reject a color map, skip the id field, build
the image and run the packet loop.  Note the function never consults the
data-type byte: both branches of the packet loop treat the pixel data as
run-length packets. -/
def TgaImage.new_from_data (bytes : List ℕ) : Except Unit TgaImage :=
  match bytes with
  | idLen :: cmt :: _dtype :: _c1 :: _c2 :: _c3 :: _c4 :: _c5 ::
      xo1 :: xo2 :: yo1 :: yo2 :: w1 :: w2 :: h1 :: h2 :: _bpp :: _desc :: rest =>
      let _xOrigin := xo1 ||| ((xo2 <<< 2) % 256)
      let _yOrigin := yo1 ||| ((yo2 <<< 2) % 256)
      let width : ℤ := ((w1 ||| (w2 <<< 8) : ℕ) : ℤ)
      let height : ℤ := ((h1 ||| (h2 <<< 8) : ℕ) : ℤ)
      if cmt ≠ 0 then Except.error ()
      else if idLen ≤ rest.length then
        match TgaImage.new width height with
        | Except.error e => Except.error e
        | Except.ok img => readPixelsGo (rest.length + 1) img width height 0 (rest.drop idLen)
      else Except.error ()
  | _ => Except.error ()

/-! ## src/main.rs : the depth buffer and its test -/

/-- a depth-buffer slot: `f32::NEG_INFINITY` (the initial value pushed
by Renderer::new) or a finite stored depth. -/
inductive ZDepth where
  | negInf : ZDepth
  | val : ℚ → ZDepth
deriving DecidableEq

/-- the `f32` comparison `z < d` against a slot; every value compares
false against negative infinity on the right. -/
def zlt (z : ℚ) (d : ZDepth) : Bool :=
  match d with
  | ZDepth.negInf => false
  | ZDepth.val q => decide (z < q)

/-- the depth buffer built by Renderer::new: `size` slots, every one
pushed as `f32::NEG_INFINITY`. -/
def initZBuffer (size : ℕ) : List ZDepth := List.replicate size ZDepth.negInf

/-- outcome of lines 148-151 of src/main.rs for one candidate pixel. -/
inductive DepthRes where
  | skip : DepthRes
  | panicked : DepthRes
  | write : DepthRes
deriving DecidableEq

/-- the depth test `if idx > self.zbuffer.len() || p.z < self.zbuffer[idx]`
with Rust short-circuit evaluation: an index strictly above the length
skips without reading; otherwise the indexing `self.zbuffer[idx]` panics
exactly when `idx` equals the length; otherwise the pixel is skipped when
the new depth is strictly below the stored one, and written otherwise. -/
def depthTest (zbuf : List ZDepth) (idx : ℕ) (z : ℚ) : DepthRes :=
  if zbuf.length < idx then DepthRes.skip
  else if h : idx < zbuf.length then
    if zlt z zbuf[idx] then DepthRes.skip else DepthRes.write
  else DepthRes.panicked

/-! ## src/main.rs : renderer state, vertices, shading -/

/-- Shading of src/main.rs. -/
inductive Shading where
  | Flat : Shading
  | Gouraud : Shading
deriving DecidableEq

/-- Vertex of src/main.rs: screen position, texture coordinate and
per-vertex intensity. -/
structure Vertex where
  p : Vec3f
  t : Vec2f
  i : ℚ
deriving DecidableEq

/-- Renderer of src/main.rs.  The depth buffer is threaded separately
through the fill loops because they mutate it. -/
structure Renderer where
  image : TgaImage
  diffuse : Option TgaImage
  zbuffer : List ZDepth
  color : RgbaColor
  shading : Shading

/-- Renderer::new: build the image (asserting positive dimensions) and
push `width * height` slots of negative infinity into the depth buffer. -/
def Renderer.new (width height : ℤ) : Except Unit Renderer :=
  match TgaImage.new width height with
  | Except.error e => Except.error e
  | Except.ok image =>
      Except.ok { image := image, diffuse := none,
                  zbuffer := initZBuffer (image.width * image.height).toNat,
                  color := ⟨1, 1, 1, 1⟩, shading := Shading.Flat }

/-! ## src/main.rs : the line primitive (Renderer::line).

The model returns the list of `(x, y)` pairs passed to set_pixel, in
order: one per loop iteration plus the final call after the loop. -/

/-- the body of `for _ in 0..steps` of Renderer::line, recursing on the
iteration count: paint, accumulate the per-axis error, advance an axis
when its error exceeds one half and reset that error by one. -/
def lineLoop : ℕ → ℚ → ℚ → ℚ → ℚ → ℤ → ℤ → ℤ → ℤ → List (ℤ × ℤ)
  | 0, _, _, _, _, _, _, x, y => [(x, y)]
  | n + 1, xs, ys, xa, ya, xis, yis, x, y =>
      (x, y) ::
        (let xa2 := xa + xs
         let x2 := if xa2 > 1 / 2 then x + xis else x
         let xa3 := if xa2 > 1 / 2 then xa2 - 1 else xa2
         let ya2 := ya + ys
         let y2 := if ya2 > 1 / 2 then y + yis else y
         let ya3 := if ya2 > 1 / 2 then ya2 - 1 else ya2
         lineLoop n xs ys xa3 ya3 xis yis x2 y2)

/-- Renderer::line: `steps = max(|dx|, |dy|)` iterations of the error
walk, then one final paint.  When `steps = 0` the Rust slopes are
`0.0 / 0.0 = NaN`; they are never read because the loop body never runs,
so the rational model (where the division yields 0) is faithful there. -/
def Renderer.line (x0 y0 x1 y1 : ℤ) : List (ℤ × ℤ) :=
  let dx := x1 - x0
  let dy := y1 - y0
  let steps := max dx.natAbs dy.natAbs
  let xs := |(dx : ℚ)| / (steps : ℚ)
  let ys := |(dy : ℚ)| / (steps : ℚ)
  lineLoop steps xs ys 0 0 dx.sign dy.sign x0 y0

/-! ## src/main.rs : the triangle fill (Renderer::triangle).

The fill is modelled as a trace of the set_pixel calls and depth-test
skips it performs, together with the final depth buffer, or `none` in
the second component when the fill panics. -/

/-- one observable event of the fill: entering a column of the
horizontal sweep, skipping a candidate pixel in the depth test, or
calling set_pixel with given coordinates and color. -/
inductive Ev where
  | col : ℚ → Ev
  | skipDepth : ℕ → Ev
  | put : ℤ → ℤ → RgbaColor → Ev
deriving DecidableEq

/-- whether an event is a column entry. -/
def Ev.isCol : Ev → Bool
  | Ev.col _ => true
  | _ => false

/-- whether an event is a set_pixel call. -/
def Ev.isPut : Ev → Bool
  | Ev.put _ _ _ => true
  | _ => false

/-- the three-compare insertion sort on `[v0, v1, v2]` at the top of
Renderer::triangle: swap(1,2) if needed, then swap(0,1), then swap(1,2),
ordering the vertices by ascending x. -/
def sort3 (v0 v1 v2 : Vertex) : Vertex × Vertex × Vertex :=
  let s1 := if v2.p.x < v1.p.x then (v0, v2, v1) else (v0, v1, v2)
  let s2 := if s1.2.1.p.x < s1.1.p.x then (s1.2.1, s1.1, s1.2.2) else s1
  if s2.2.2.p.x < s2.2.1.p.x then (s2.1, s2.2.2, s2.2.1) else s2

/-- the per-triangle constants computed before the column sweep of
Renderer::triangle (lines 96-110): the sorted vertices 0 and 1 and the
edge deltas and x-extents for position, texture and intensity. -/
structure TriCtx where
  r : Renderer
  v0 : Vertex
  v1 : Vertex
  a : Vec3f
  b : Vec3f
  c : Vec3f
  ta : Vec2f
  tb : Vec2f
  tc : Vec2f
  ia : ℚ
  ib : ℚ
  ic : ℚ
  a_xlen : ℚ
  b_xlen : ℚ
  c_xlen : ℚ

/-- the vertical `while ystep <= ylen` sweep of one column (lines
141-167): at each row interpolate the pixel between B (the short-edge
point `pbc`) and A (the long-edge point `pa`), run the depth test, and
on a write update the buffer, resolve the color (sampling the diffuse
texture when bound, which can panic out of range) and call set_pixel.
`none` in the second component is a panic; the fuel is an upper bound
on the row count, with the base case equal to the loop exit. -/
def vsweepBody (r : Renderer) (pa pbc : Vec3f) (t tbc : Vec2f) (i ibc ylen : ℚ)
    (ystep : ℚ) (zbuf : List ZDepth)
    (recur : ℚ → List ZDepth → List Ev × Option (List ZDepth)) :
    List Ev × Option (List ZDepth) :=
  if ystep ≤ ylen then
    let y_coef := ystep / ylen
    let p := pbc + (pa - pbc) * y_coef
    let idx := usizeOfI32 (rustI32 p.x + r.image.height * rustI32 p.y)
    match depthTest zbuf idx p.z with
    | DepthRes.skip =>
        let rest := recur (ystep + 1) zbuf
        (Ev.skipDepth idx :: rest.1, rest.2)
    | DepthRes.panicked => ([], none)
    | DepthRes.write =>
        let zbuf2 := zbuf.set idx (ZDepth.val p.z)
        let copt :=
          match r.diffuse with
          | some v =>
              let tp := tbc + (t - tbc) * y_coef
              TgaImage.get_pixel v (rustI32 (tp.x * (v.width : ℚ)))
                (rustI32 (tp.y * (v.height : ℚ)))
          | none => some r.color
        match copt with
        | none => ([], none)
        | some c =>
            let intensity := |ibc + (i - ibc) * y_coef|
            let rest := recur (ystep + 1) zbuf2
            (Ev.put (rustI32 p.x) (rustI32 p.y) (RgbaColor.mulScalar c intensity) :: rest.1,
             rest.2)
  else ([], some zbuf)

/-- the recursion over the fuel: one `vsweepBody` step per unit of
fuel, exiting like the loop when the fuel is spent (the iteration-count
lemmas below show the fuel chosen by `vsweep` is never spent while the
guard still holds). -/
def vsweepGo (r : Renderer) (pa pbc : Vec3f) (t tbc : Vec2f) (i ibc ylen : ℚ) :
    ℕ → ℚ → List ZDepth → List Ev × Option (List ZDepth)
  | 0, _, zbuf => ([], some zbuf)
  | fuel + 1, ystep, zbuf =>
      vsweepBody r pa pbc t tbc i ibc ylen ystep zbuf
        (vsweepGo r pa pbc t tbc i ibc ylen fuel)

/-- the vertical sweep entered with `ystep = 0` and enough fuel for
`floor ylen + 1` iterations. -/
def vsweep (r : Renderer) (pa pbc : Vec3f) (t tbc : Vec2f) (i ibc ylen : ℚ)
    (zbuf : List ZDepth) : List Ev × Option (List ZDepth) :=
  vsweepGo r pa pbc t tbc i ibc ylen (⌊ylen⌋.toNat + 2) 0 zbuf

/-- the body of the horizontal `while xstep < a_xlen` column sweep
(lines 121-170): at each column interpolate A along the long edge and B
along whichever short edge spans the column (the first while
`xstep <= b_xlen` and `b_xlen != 0.0`, the second otherwise), compute
`ylen = round |pa.y - pbc.y| + 1` and run the vertical sweep, then the
next column through `recur`. -/
def hsweepBody (ctx : TriCtx) (xstep : ℚ) (zbuf : List ZDepth)
    (recur : ℚ → List ZDepth → List Ev × Option (List ZDepth)) :
    List Ev × Option (List ZDepth) :=
  if xstep < ctx.a_xlen then
    let a_coef := xstep / ctx.a_xlen
    let pa := ctx.v0.p + ctx.a * a_coef
    let t := ctx.v0.t + ctx.ta * a_coef
    let i := ctx.v0.i + ctx.ia * a_coef
    let bc :=
      if xstep ≤ ctx.b_xlen ∧ ctx.b_xlen ≠ 0 then
        let b_coef := xstep / ctx.b_xlen
        (ctx.v0.p + ctx.b * b_coef, ctx.v0.t + ctx.tb * b_coef, ctx.v0.i + ctx.ib * b_coef)
      else
        let c_coef := (xstep - ctx.b_xlen) / ctx.c_xlen
        (ctx.v1.p + ctx.c * c_coef, ctx.v1.t + ctx.tc * c_coef, ctx.v1.i + ctx.ic * c_coef)
    let ylen : ℚ := ((rustRound |pa.y - bc.1.y| : ℤ) : ℚ) + 1
    match vsweep ctx.r pa bc.1 t bc.2.1 i bc.2.2 ylen zbuf with
    | (tr, none) => (Ev.col xstep :: tr, none)
    | (tr, some zbuf2) =>
        let rest := recur (xstep + 1) zbuf2
        (Ev.col xstep :: (tr ++ rest.1), rest.2)
  else ([], some zbuf)

/-- the recursion over the fuel for the column sweep; the fuel chosen
by Renderer::triangle covers every column, as the counting lemmas below
establish. -/
def hsweepGo (ctx : TriCtx) : ℕ → ℚ → List ZDepth → List Ev × Option (List ZDepth)
  | 0, _, zbuf => ([], some zbuf)
  | fuel + 1, xstep, zbuf =>
      hsweepBody ctx xstep zbuf (hsweepGo ctx fuel)

/-- Renderer::triangle: sort the vertices by x, build the edge context
and run the column sweep from `xstep = 0` over the renderer depth
buffer, with enough fuel for `ceil a_xlen` columns. -/
def Renderer.triangle (r : Renderer) (w0 w1 w2 : Vertex) : List Ev × Option (List ZDepth) :=
  let s := sort3 w0 w1 w2
  let v0 := s.1
  let v1 := s.2.1
  let v2 := s.2.2
  let ctx : TriCtx :=
    { r := r, v0 := v0, v1 := v1,
      a := v2.p - v0.p, b := v1.p - v0.p, c := v2.p - v1.p,
      ta := v2.t - v0.t, tb := v1.t - v0.t, tc := v2.t - v1.t,
      ia := v2.i - v0.i, ib := v1.i - v0.i, ic := v2.i - v1.i,
      a_xlen := v2.p.x - v0.p.x, b_xlen := v1.p.x - v0.p.x, c_xlen := v2.p.x - v1.p.x }
  hsweepGo ctx (⌈ctx.a_xlen⌉.toNat + 1) 0 r.zbuffer

/-! ## src/model.rs : the mesh loader (Model::load_from_file).

The string layer (line reading, `starts_with`, `words()`, `split('/')`
and `FromStr::from_str`) is external library code; a line is therefore
modelled already tokenized: each numeric token is `some q` when
`from_str` succeeds and `none` when it fails, and a line is tagged by
which prefix it matched. -/

/-- Model of src/model.rs. -/
structure Model where
  vertices : List Vec3f
  texture_coords : List Vec2f
  faces : List (List ℤ)
deriving DecidableEq

/-- one input line after tokenization: a `v ` line with its whitespace
tokens, a `vt ` line likewise, an `f ` line with its index tokens (the
concatenation of the `split('/')` pieces of all words), or any other
line, which the loader ignores. -/
inductive ObjLine where
  | v : List (Option ℚ) → ObjLine
  | vt : List (Option ℚ) → ObjLine
  | f : List (Option ℤ) → ObjLine
  | other : ObjLine

/-- the `for i in range(0, n)` token loop of the `v `/`vt ` branches:
read `n` tokens; a missing token (`iter.next()` is `None`) or a failed
parse (`from_str` is `None`) makes the loop `continue 'line`, modelled
as `none`; otherwise the parsed values in order. -/
def readTokens : ℕ → List (Option ℚ) → Option (List ℚ)
  | 0, _ => some []
  | _ + 1, [] => none
  | _ + 1, none :: _ => none
  | n + 1, some v :: rest => (readTokens n rest).map (fun l => v :: l)

/-- the index loop of the `f ` branch: `indices` starts as nine zeros
and `i` counts written slots; a token that fails to parse makes the
whole line `continue 'line` (`Except.ok none`); writing past slot 8
is an out-of-bounds array store, a panic (`Except.error`). -/
def fillIndices (arr : List ℤ) (i : ℕ) (toks : List (Option ℤ)) :
    Except Unit (Option (List ℤ)) :=
  match toks with
  | [] => Except.ok (some arr)
  | none :: _ => Except.ok none
  | some v :: rest =>
      if i < arr.length then fillIndices (arr.set i (v - 1)) (i + 1) rest
      else Except.error ()

/-- the body of the per-line loop of Model::load_from_file: a `v ` line
records a vertex only when all three tokens parse, a `vt ` line records
a texture coordinate only when both tokens parse, an `f ` line records
the nine adjusted indices unless a token fails to parse, and any other
line is ignored. -/
def Model.loadLine (m : Model) (l : ObjLine) : Except Unit Model :=
  match l with
  | ObjLine.v toks =>
      match readTokens 3 toks with
      | some [x, y, z] => Except.ok { m with vertices := m.vertices ++ [⟨x, y, z⟩] }
      | _ => Except.ok m
  | ObjLine.vt toks =>
      match readTokens 2 toks with
      | some [x, y] => Except.ok { m with texture_coords := m.texture_coords ++ [⟨x, y⟩] }
      | _ => Except.ok m
  | ObjLine.f toks =>
      match fillIndices (List.replicate 9 0) 0 toks with
      | Except.error e => Except.error e
      | Except.ok none => Except.ok m
      | Except.ok (some idxs) => Except.ok { m with faces := m.faces ++ [idxs] }
  | ObjLine.other => Except.ok m

/-- the whole line loop of Model::load_from_file over a tokenized file,
starting from empty vertex, texture and face lists. -/
def Model.load_from_file (lines : List ObjLine) : Except Unit Model :=
  let rec go (m : Model) : List ObjLine → Except Unit Model
    | [] => Except.ok m
    | l :: ls =>
        match Model.loadLine m l with
        | Except.error e => Except.error e
        | Except.ok m2 => go m2 ls
  go ⟨[], [], []⟩ lines

/-! ## Concrete instances used by the witnesses and counterexamples -/

/-- a 2 by 2 all-black image (the value inside `TgaImage.new 2 2`). -/
def tga2x2 : TgaImage := ⟨2, 2, List.replicate 4 ⟨0, 0, 0, 0⟩⟩

/-- a 1 by 1 all-black image (the value inside `TgaImage.new 1 1`). -/
def tga1x1 : TgaImage := ⟨1, 1, [⟨0, 0, 0, 0⟩]⟩

/-- a renderer over a 2 by 2 canvas, as built by `Renderer.new 2 2`. -/
def rend2 : Renderer :=
  { image := tga2x2, diffuse := none, zbuffer := initZBuffer 4,
    color := ⟨1, 1, 1, 1⟩, shading := Shading.Flat }

/-- a renderer over a 3 by 3 canvas, as built by `Renderer.new 3 3`. -/
def rend3 : Renderer :=
  { image := ⟨3, 3, List.replicate 9 ⟨0, 0, 0, 0⟩⟩, diffuse := none,
    zbuffer := initZBuffer 9, color := ⟨1, 1, 1, 1⟩, shading := Shading.Flat }

/-- a renderer over a 4 by 4 canvas, as built by `Renderer.new 4 4`. -/
def rend4 : Renderer :=
  { image := ⟨4, 4, List.replicate 16 ⟨0, 0, 0, 0⟩⟩, diffuse := none,
    zbuffer := initZBuffer 16, color := ⟨1, 1, 1, 1⟩, shading := Shading.Flat }

/-- a screen vertex at a given position with zero texture coordinate
and intensity one. -/
def mkVert (x y z : ℚ) : Vertex := ⟨⟨x, y, z⟩, ⟨0, 0⟩, 1⟩

/-- the empty model (the accumulator Model::load_from_file starts from). -/
def emptyModel : Model := ⟨[], [], []⟩

/-- decidable equality of `Except` results, used to evaluate the model
on concrete inputs. -/
instance exceptDecEq {ε α : Type} [DecidableEq ε] [DecidableEq α] :
    DecidableEq (Except ε α)
  | Except.error a, Except.error b =>
      match decEq a b with
      | isTrue h => isTrue (by rw [h])
      | isFalse h => isFalse (fun hh => h (Except.error.inj hh))
  | Except.error _, Except.ok _ => isFalse Except.noConfusion
  | Except.ok _, Except.error _ => isFalse Except.noConfusion
  | Except.ok a, Except.ok b =>
      match decEq a b with
      | isTrue h => isTrue (by rw [h])
      | isFalse h => isFalse (fun hh => h (Except.ok.inj hh))

/-! # Theorems -/

/-! ## C10 : get_pixel panics out of range where set_pixel no-ops -/

/-- C10: for every call to TgaImage::get_pixel whose linear index
`(x + height * y) as usize` falls outside the pixel array, the lookup
panics (modelled as `none`) instead of returning a default color or
no-opping, while TgaImage::set_pixel at the same coordinates silently
leaves the image unchanged. -/
theorem get_pixel_oob_panics (img : TgaImage) (x y : ℤ) (c : RgbaColor)
    (h : img.pixels.length ≤ usizeOfI32 (x + img.height * y)) :
    TgaImage.get_pixel img x y = none ∧ TgaImage.set_pixel img x y c = img := by
  constructor
  · simp [TgaImage.get_pixel, List.getElem?_eq_none h]
  · simp [TgaImage.set_pixel, List.getElem?_eq_none h]

/-- C10 witness: on the concrete 2 by 2 image, reading coordinates
(0, 5) gives linear index 10, beyond the 4 pixels: the read panics and
the write is a no-op. -/
theorem get_pixel_oob_panics_witness :
    TgaImage.get_pixel tga2x2 0 5 = none ∧
      TgaImage.set_pixel tga2x2 0 5 ⟨1, 1, 1, 1⟩ = tga2x2 :=
  get_pixel_oob_panics tga2x2 0 5 ⟨1, 1, 1, 1⟩ (by with_unfolding_all decide)

/-! ## C6 : set_pixel and out-of-bounds coordinates -/

/-- C6 counterexample: the claim says set_pixel is a no-op for every
coordinate pair outside the `[0, width) x [0, height)` domain.  On the
2 by 2 image the coordinate x = 2 is outside the domain, yet the linear
index `2 + 2 * 0 = 2` is inside the 4-slot pixel array, so the call
overwrites an aliased pixel and the image changes. -/
theorem set_pixel_oob_coordinate_writes :
    TgaImage.set_pixel tga2x2 2 0 ⟨1, 1, 1, 1⟩ ≠ tga2x2 := by
  with_unfolding_all decide

/-- C6 amended: set_pixel is a silent no-op exactly on the index level:
whenever the computed linear index `(x + height * y) as usize` falls
outside the pixel array the image is unchanged and no error is raised;
out-of-domain coordinates whose index still lands inside the array
instead write to the aliased slot. -/
theorem set_pixel_oob_index_noop (img : TgaImage) (x y : ℤ) (c : RgbaColor)
    (h : img.pixels.length ≤ usizeOfI32 (x + img.height * y)) :
    TgaImage.set_pixel img x y c = img := by
  simp [TgaImage.set_pixel, List.getElem?_eq_none h]

/-- C6 witness: writing at coordinates (1, 7) of the 2 by 2 image,
linear index 15, leaves the image untouched. -/
theorem set_pixel_oob_index_noop_witness :
    TgaImage.set_pixel tga2x2 1 7 ⟨0, 1, 0, 1⟩ = tga2x2 :=
  set_pixel_oob_index_noop tga2x2 1 7 ⟨0, 1, 0, 1⟩ (by with_unfolding_all decide)

/-! ## C1 : the depth test -/

/-- C1 counterexample: the claim says a pixel whose new depth is not
strictly greater than the stored depth is skipped (ties lose).  With a
stored depth 0 at index 0 and a new depth 0 — not strictly greater —
the code writes: ties overwrite. -/
theorem depthTest_tie_overwrites :
    depthTest [ZDepth.val 0] 0 0 = DepthRes.write ∧ ¬ ((0 : ℚ) > 0) := by
  with_unfolding_all decide

/-- C1 amended: a candidate pixel is skipped exactly when its linear
index strictly exceeds the depth-buffer length, or the index is in
range and the new depth is strictly less than the stored depth (so a
greater-or-equal value overwrites: ties overwrite rather than lose); an
index exactly equal to the length is not skipped but panics; and since
Renderer::new fills every slot with negative infinity, the first
depth-tested access to any in-range index of a fresh buffer always
writes. -/
theorem depthTest_characterization (zbuf : List ZDepth) (idx : ℕ) (z : ℚ) :
    (depthTest zbuf idx z = DepthRes.skip ↔
      (zbuf.length < idx ∨ ∃ h : idx < zbuf.length, zlt z zbuf[idx] = true)) ∧
    (depthTest zbuf idx z = DepthRes.panicked ↔ idx = zbuf.length) ∧
    (∀ h : idx < zbuf.length, zbuf[idx] = ZDepth.negInf →
      depthTest zbuf idx z = DepthRes.write) ∧
    (∀ n, idx < n → depthTest (initZBuffer n) idx z = DepthRes.write) := by
  refine ⟨?_, ?_, ?_, ?_⟩
  · unfold depthTest
    split
    · simp_all
    · split
      · rename_i hlt
        split
        · simp_all
        · rename_i hz
          simp only [reduceCtorEq, false_iff, not_or, not_exists]
          exact ⟨by omega, fun h => by simp_all⟩
      · rename_i hgt hlt
        simp only [reduceCtorEq, false_iff, not_or, not_exists]
        exact ⟨hgt, fun h => absurd h hlt⟩
  · unfold depthTest
    split
    · rename_i hgt
      simp only [reduceCtorEq, false_iff]
      omega
    · split
      · rename_i hlt
        split <;> · simp only [reduceCtorEq, false_iff]; omega
      · rename_i hgt hlt
        simp only [true_iff]
        omega
  · intro h hneg
    unfold depthTest
    rw [if_neg (by omega), dif_pos h, hneg]
    simp [zlt]
  · intro n hn
    have hlen : (initZBuffer n).length = n := by simp [initZBuffer]
    unfold depthTest
    rw [if_neg (by omega), dif_pos (by omega)]
    simp [initZBuffer, zlt]

/-- C1 witness: in a fresh 4-slot depth buffer the write at index 2
with depth 5 succeeds, and the characterization holds at that input. -/
theorem depthTest_characterization_witness :
    depthTest (initZBuffer 4) 2 5 = DepthRes.write :=
  (depthTest_characterization (initZBuffer 4) 2 5).2.2.2 4 (by decide)

/-! ## C2 : out-of-range depth index (code bug) -/

/-- C2: the guard `idx > self.zbuffer.len()` lets the index equal to
the length through to `self.zbuffer[idx]`, which panics.  Concretely,
on a 2 by 2 renderer (4 depth slots) the triangle with screen vertices
(0,2,0), (1,2,0), (1,2,0) computes linear index `0 + 2 * 2 = 4` for its
first candidate pixel, and the fill panics instead of ignoring the
write as the claim states. -/
theorem triangle_index_at_length_panics :
    (Renderer.triangle rend2 (mkVert 0 2 0) (mkVert 1 2 0) (mkVert 1 2 0)).2 = none := by
  with_unfolding_all decide

/-! ## C3 : TGA round trip (code bug) -/

/-- C3: TgaImage::new_from_file never consults the data-type byte and
unconditionally interprets the pixel data as run-length packets, while
TgaImage::write_to_file emits type-2 uncompressed data with no packet
bytes.  Reading back the written bytes of a 1 by 1 image consumes the
first blue byte as a packet header and runs out of stream, panicking;
the round trip does not reproduce the pixel contents. -/
theorem tga_roundtrip_uncompressed_panics :
    TgaImage.new 1 1 = Except.ok tga1x1 ∧
      TgaImage.new_from_data (TgaImage.write_data tga1x1) = Except.error () := by
  with_unfolding_all decide

/-! ## Iteration-count lemmas for the two fill loops -/

/-- when the fuel is enough for the guard to fail before it runs out
and no panic occurs, the vertical sweep emits exactly one event per
iteration, that is `floor (ylen - ystep) + 1` events from counter
`ystep` on (and none when the guard fails at entry). -/
theorem vsweepGo_length (r : Renderer) (pa pbc : Vec3f) (t tbc : Vec2f) (i ibc ylen : ℚ) :
    ∀ (fuel : ℕ) (ystep : ℚ) (zbuf : List ZDepth),
      ylen < ystep + fuel →
      (vsweepGo r pa pbc t tbc i ibc ylen fuel ystep zbuf).2 ≠ none →
      (vsweepGo r pa pbc t tbc i ibc ylen fuel ystep zbuf).1.length
        = (⌊ylen - ystep⌋ + 1).toNat := by
  intro fuel
  induction fuel with
  | zero =>
      intro ystep zbuf hfuel _
      have hneg : ylen - ystep < 0 := by push_cast at hfuel; linarith
      have hlt : ⌊ylen - ystep⌋ < 0 := Int.floor_lt.mpr (by exact_mod_cast hneg)
      simp only [vsweepGo, List.length_nil]
      omega
  | succ n ih =>
      intro ystep zbuf hfuel hres
      have hfuel2 : ylen < (ystep + 1) + n := by push_cast at hfuel ⊢; linarith
      revert hres
      simp only [vsweepGo, vsweepBody]
      split
      · rename_i hguard
        have hnn : (0 : ℚ) ≤ ylen - ystep := by linarith
        have hfl0 : 0 ≤ ⌊ylen - ystep⌋ := Int.floor_nonneg.mpr hnn
        have hfl : ⌊ylen - (ystep + 1)⌋ = ⌊ylen - ystep⌋ - 1 := by
          have h1 : ylen - (ystep + 1) = (ylen - ystep) - ((1 : ℤ) : ℚ) := by push_cast; ring
          rw [h1, Int.floor_sub_int]
        split
        · intro hres
          simp only [List.length_cons]
          rw [ih (ystep + 1) _ hfuel2 hres]
          omega
        · intro hres
          simp at hres
        · split
          · intro hres
            simp at hres
          · intro hres
            simp only [List.length_cons]
            rw [ih (ystep + 1) _ hfuel2 hres]
            omega
      · rename_i hguard
        intro _
        have hneg : ylen - ystep < 0 := by
          by_contra hcon
          exact hguard (by linarith)
        have hlt : ⌊ylen - ystep⌋ < 0 := Int.floor_lt.mpr (by exact_mod_cast hneg)
        simp only [List.length_nil]
        omega

/-- the vertical sweep never emits a column event: those are emitted
only by the column loop itself. -/
theorem vsweepGo_no_col (r : Renderer) (pa pbc : Vec3f) (t tbc : Vec2f) (i ibc ylen : ℚ) :
    ∀ (fuel : ℕ) (ystep : ℚ) (zbuf : List ZDepth),
      (vsweepGo r pa pbc t tbc i ibc ylen fuel ystep zbuf).1.countP Ev.isCol = 0 := by
  intro fuel
  induction fuel with
  | zero => intro ystep zbuf; simp [vsweepGo]
  | succ n ih =>
      intro ystep zbuf
      simp only [vsweepGo, vsweepBody]
      split
      · split
        · simp [List.countP_cons, Ev.isCol, ih]
        · simp
        · split
          · simp
          · simp [List.countP_cons, Ev.isCol, ih]
      · simp

/-- when no panic occurs and the fuel is adequate, the column sweep
enters exactly `ceil (a_xlen - xstep)` columns from counter `xstep` on:
the loop guard `xstep < a_xlen` is strict, so the boundary column is
excluded. -/
theorem hsweepGo_col_count (ctx : TriCtx) :
    ∀ (fuel : ℕ) (xstep : ℚ) (zbuf : List ZDepth),
      ctx.a_xlen ≤ xstep + fuel →
      (hsweepGo ctx fuel xstep zbuf).2 ≠ none →
      (hsweepGo ctx fuel xstep zbuf).1.countP Ev.isCol = ⌈ctx.a_xlen - xstep⌉.toNat := by
  intro fuel
  induction fuel with
  | zero =>
      intro xstep zbuf hfuel _
      have hle : ctx.a_xlen - xstep ≤ 0 := by push_cast at hfuel; linarith
      have hc : ⌈ctx.a_xlen - xstep⌉ ≤ 0 := Int.ceil_le.mpr (by exact_mod_cast hle)
      simp only [hsweepGo, List.countP_nil]
      omega
  | succ n ih =>
      intro xstep zbuf hfuel hres
      have hfuel2 : ctx.a_xlen ≤ (xstep + 1) + n := by push_cast at hfuel ⊢; linarith
      revert hres
      simp only [hsweepGo, hsweepBody]
      split
      · rename_i hguard
        have hpos : 0 < ctx.a_xlen - xstep := by linarith
        have hc1 : 1 ≤ ⌈ctx.a_xlen - xstep⌉ := Int.ceil_pos.mpr (by exact_mod_cast hpos)
        have hcs : ⌈ctx.a_xlen - (xstep + 1)⌉ = ⌈ctx.a_xlen - xstep⌉ - 1 := by
          have h1 : ctx.a_xlen - (xstep + 1) = (ctx.a_xlen - xstep) - ((1 : ℤ) : ℚ) := by
            push_cast; ring
          rw [h1, Int.ceil_sub_int]
        split
        · intro hres
          simp at hres
        · rename_i tr zbuf2 heq
          intro hres
          have hres2 : (hsweepGo ctx n (xstep + 1) zbuf2).2 ≠ none := by simpa using hres
          have h2 := congrArg Prod.fst heq
          simp only [Prod.fst] at h2
          have htr : tr.countP Ev.isCol = 0 := by
            rw [← h2]
            unfold vsweep
            exact vsweepGo_no_col _ _ _ _ _ _ _ _ _ _ _
          have hih := ih (xstep + 1) zbuf2 hfuel2 hres2
          simp only [List.countP_cons, List.countP_append, htr, hih, Ev.isCol]
          rw [hcs] at hih ⊢
          simp only [if_true]
          omega
      · rename_i hguard
        intro _
        have hle : ctx.a_xlen - xstep ≤ 0 := by linarith
        have hc : ⌈ctx.a_xlen - xstep⌉ ≤ 0 := Int.ceil_le.mpr (by exact_mod_cast hle)
        simp only [List.countP_nil]
        omega

/-! ## C5 : rows per column of the vertical sweep -/

/-- C5 counterexample: on a 3 by 3 canvas, the triangle with screen
vertices (0,0,0), (1,1/2,0), (2,0,0) sweeps two columns; in the column
at offset 1 the long-edge point A is (1,0,0) and the short-edge point B
is (1,1/2,0), so `|A.y - B.y| = 1/2` and the claim demands
`round(1/2) + 1 = 2` painted rows there, one pixel per row.  The code
paints three pixels in that column, all in the same row 0 (and two in
the column at offset 0, where the claim demands one): the full list of
set_pixel calls is five, not the three the claim predicts, and the
rows painted per column do not match the claimed count under either
reading. -/
theorem triangle_vertical_rows_counterexample :
    (Renderer.triangle rend3 (mkVert 0 0 0) (mkVert 1 (1 / 2) 0) (mkVert 2 0 0)).1.filter
        Ev.isPut
      = [Ev.put 0 0 ⟨1, 1, 1, 1⟩, Ev.put 0 0 ⟨1, 1, 1, 1⟩, Ev.put 1 0 ⟨1, 1, 1, 1⟩,
         Ev.put 1 0 ⟨1, 1, 1, 1⟩, Ev.put 1 0 ⟨1, 1, 1, 1⟩] := by
  with_unfolding_all decide

/-- C5 amended: within each swept column, with
`ylen = round |A.y - B.y| + 1` as computed on line 140, the vertical
sweep `while ystep <= ylen` is inclusive at both ends and therefore
performs exactly `round |A.y - B.y| + 2` row iterations (one set_pixel
call or depth-skip each) whenever it does not panic — one more than the
`round + 1` the claim states. -/
theorem vsweep_row_count (r : Renderer) (pa pbc : Vec3f) (t tbc : Vec2f) (i ibc : ℚ)
    (zbuf : List ZDepth)
    (hres : (vsweep r pa pbc t tbc i ibc (((rustRound |pa.y - pbc.y| : ℤ) : ℚ) + 1) zbuf).2
      ≠ none) :
    (vsweep r pa pbc t tbc i ibc (((rustRound |pa.y - pbc.y| : ℤ) : ℚ) + 1) zbuf).1.length
      = (rustRound |pa.y - pbc.y|).toNat + 2 := by
  have hm : 0 ≤ rustRound |pa.y - pbc.y| := by
    unfold rustRound
    rw [if_pos (abs_nonneg _)]
    exact Int.floor_nonneg.mpr (by positivity)
  set m := rustRound |pa.y - pbc.y| with hmdef
  have hfl : (⌊((m : ℚ) + 1)⌋ : ℤ) = m + 1 := by
    rw [show ((m : ℚ) + 1) = ((m + 1 : ℤ) : ℚ) by push_cast; ring, Int.floor_intCast]
  unfold vsweep at hres ⊢
  rw [vsweepGo_length r pa pbc t tbc i ibc ((m : ℚ) + 1) (⌊((m : ℚ) + 1)⌋.toNat + 2) 0 zbuf
    (by
      rw [hfl]
      have h4 : ((m + 1 : ℤ) : ℚ) ≤ (((m + 1).toNat : ℤ) : ℚ) := by
        exact_mod_cast Int.self_le_toNat _
      push_cast at h4 ⊢
      linarith) hres]
  rw [sub_zero, hfl]
  omega

/-- C5 witness: the sweep between two coincident points A = B = (0,0,0)
over a fresh 3 by 3 renderer does not panic and performs
`round 0 + 2 = 2` iterations. -/
theorem vsweep_row_count_witness :
    (vsweep rend3 ⟨0, 0, 0⟩ ⟨0, 0, 0⟩ ⟨0, 0⟩ ⟨0, 0⟩ 1 1
        (((rustRound |(⟨0, 0, 0⟩ : Vec3f).y - (⟨0, 0, 0⟩ : Vec3f).y| : ℤ) : ℚ) + 1)
        (initZBuffer 9)).1.length
      = (rustRound |(⟨0, 0, 0⟩ : Vec3f).y - (⟨0, 0, 0⟩ : Vec3f).y|).toNat + 2 :=
  vsweep_row_count rend3 ⟨0, 0, 0⟩ ⟨0, 0, 0⟩ ⟨0, 0⟩ ⟨0, 0⟩ 1 1 (initZBuffer 9)
    (by with_unfolding_all decide)

/-! ## C4 : number of swept columns -/

/-- C4 counterexample: the triangle with vertices at x = 0, 1, 1 (not
all sharing an x) has long-edge x-length 1, so the claim predicts
`floor 1 + 1 = 2` columns; the strict loop guard visits only one. -/
theorem triangle_integral_length_columns :
    (Renderer.triangle rend3 (mkVert 0 0 0) (mkVert 1 0 0) (mkVert 1 0 0)).1.countP Ev.isCol
      ≠ ⌊(1 : ℚ)⌋.toNat + 1 := by
  with_unfolding_all decide

/-- C4 amended: the column sweep runs `xstep` from 0 while strictly
below the long-edge x-length (the boundary column is excluded), so a
fill that does not panic visits exactly `ceil a_xlen` columns — this
equals `floor a_xlen + 1` only when the length is not an integer, and
equals `floor a_xlen` when it is. -/
theorem triangle_column_count (r : Renderer) (w0 w1 w2 : Vertex)
    (hres : (Renderer.triangle r w0 w1 w2).2 ≠ none) :
    (Renderer.triangle r w0 w1 w2).1.countP Ev.isCol
      = ⌈(sort3 w0 w1 w2).2.2.p.x - (sort3 w0 w1 w2).1.p.x⌉.toNat := by
  unfold Renderer.triangle at hres ⊢
  set a_xlen := (sort3 w0 w1 w2).2.2.p.x - (sort3 w0 w1 w2).1.p.x with ha
  have hfuel : a_xlen ≤ (0 : ℚ) + (⌈a_xlen⌉.toNat + 1 : ℕ) := by
    have h1 : a_xlen ≤ (⌈a_xlen⌉ : ℚ) := Int.le_ceil _
    have h2 : (⌈a_xlen⌉ : ℤ) ≤ ⌈a_xlen⌉.toNat := Int.self_le_toNat _
    have h3 : ((⌈a_xlen⌉ : ℤ) : ℚ) ≤ ((⌈a_xlen⌉.toNat : ℤ) : ℚ) := by exact_mod_cast h2
    push_cast at h3 ⊢
    linarith
  rw [hsweepGo_col_count _ _ 0 r.zbuffer hfuel hres, sub_zero]

/-- C4 witness: a triangle with long-edge x-length 5/2 (vertices at
x = 0, 1, 5/2) does not panic on a 4 by 4 canvas and visits
`ceil (5/2) = 3` columns. -/
theorem triangle_column_count_witness :
    (Renderer.triangle rend4 (mkVert 0 0 0) (mkVert 1 0 0) (mkVert (5 / 2) 0 0)).1.countP
        Ev.isCol
      = ⌈(sort3 (mkVert 0 0 0) (mkVert 1 0 0) (mkVert (5 / 2) 0 0)).2.2.p.x
          - (sort3 (mkVert 0 0 0) (mkVert 1 0 0) (mkVert (5 / 2) 0 0)).1.p.x⌉.toNat :=
  triangle_column_count rend4 (mkVert 0 0 0) (mkVert 1 0 0) (mkVert (5 / 2) 0 0)
    (by with_unfolding_all decide)

/-! ## C7 : degenerate triangles -/

/-- C7 counterexample: the three screen vertices (0,0,0), (1,0,0),
(2,0,0) are collinear (but do not all share an x), and the claim says a
degenerate triangle performs no pixel writes.  On a 4 by 4 canvas the
fill performs four set_pixel calls, painting the degenerate segment. -/
theorem triangle_collinear_writes :
    (Renderer.triangle rend4 (mkVert 0 0 0) (mkVert 1 0 0) (mkVert 2 0 0)).1.countP Ev.isPut
      = 4 := by
  with_unfolding_all decide

/-- C7 amended: a triangle whose three vertices all share the same x
coordinate has zero horizontal extent, so the column sweep exits at
once: the fill performs no pixel writes, leaves the depth buffer
untouched and cannot panic.  Collinear triangles with nonzero
horizontal extent do write pixels (the counterexample above). -/
theorem triangle_same_x_no_writes (r : Renderer) (w0 w1 w2 : Vertex)
    (h1 : w1.p.x = w0.p.x) (h2 : w2.p.x = w0.p.x) :
    Renderer.triangle r w0 w1 w2 = ([], some r.zbuffer) := by
  have hs : sort3 w0 w1 w2 = (w0, w1, w2) := by
    simp [sort3, h1, h2]
  unfold Renderer.triangle
  rw [hs]
  simp only []
  have hlen : w2.p.x - w0.p.x = 0 := by rw [h2]; ring
  have hceil : (⌈(w2.p.x - w0.p.x : ℚ)⌉.toNat + 1) = 1 := by
    rw [hlen]
    simp
  rw [hceil]
  rw [hsweepGo]
  rw [hsweepBody]
  rw [if_neg (by simp [hlen])]

/-- C7 witness: a vertical triangle with all vertices at x = 2 on the
3 by 3 renderer produces the empty trace and the unchanged buffer. -/
theorem triangle_same_x_no_writes_witness :
    Renderer.triangle rend3 (mkVert 2 0 0) (mkVert 2 1 0) (mkVert 2 2 0)
      = ([], some rend3.zbuffer) :=
  triangle_same_x_no_writes rend3 (mkVert 2 0 0) (mkVert 2 1 0) (mkVert 2 2 0) rfl rfl

/-! ## C8 : the line primitive -/

/-- the loop of Renderer::line paints one pixel per iteration plus the
final pixel, so the trace always has `steps + 1` entries. -/
theorem lineLoop_length :
    ∀ (n : ℕ) (xs ys xa ya : ℚ) (xis yis x y : ℤ),
      (lineLoop n xs ys xa ya xis yis x y).length = n + 1 := by
  intro n
  induction n with
  | zero => intro xs ys xa ya xis yis x y; simp [lineLoop]
  | succ m ih => intro xs ys xa ya xis yis x y; simp only [lineLoop, List.length_cons, ih]

/-- when the x slope is exactly 1 and the x error term starts at 0, the
error walk advances x by `xis` on every iteration: the painted x
coordinates are `x, x + xis, ..., x + n * xis` in order. -/
theorem lineLoop_fst_map (ys : ℚ) (xis yis : ℤ) :
    ∀ (n : ℕ) (ya : ℚ) (x y : ℤ),
      (lineLoop n 1 ys 0 ya xis yis x y).map Prod.fst
        = (List.range (n + 1)).map (fun k : ℕ => x + (k : ℤ) * xis) := by
  intro n
  induction n with
  | zero => intro ya x y; simp [lineLoop, List.range_succ]
  | succ m ih =>
      intro ya x y
      have hcond : (0 : ℚ) + 1 > 1 / 2 := by norm_num
      have hxa : (0 : ℚ) + 1 - 1 = 0 := by norm_num
      conv_lhs => rw [lineLoop]
      simp only [if_pos hcond, hxa, List.map_cons]
      rw [ih]
      conv_rhs => rw [show m + 1 + 1 = (m + 1) + 1 from rfl, List.range_succ_eq_map]
      rw [List.map_cons, List.map_map]
      congr 1
      · norm_num
      · exact List.map_congr_left (fun k _ => by simp only [Function.comp]; push_cast; ring)

/-- the mirror statement for a y slope of exactly 1. -/
theorem lineLoop_snd_map (xs : ℚ) (xis yis : ℤ) :
    ∀ (n : ℕ) (xa : ℚ) (x y : ℤ),
      (lineLoop n xs 1 xa 0 xis yis x y).map Prod.snd
        = (List.range (n + 1)).map (fun k : ℕ => y + (k : ℤ) * yis) := by
  intro n
  induction n with
  | zero => intro xa x y; simp [lineLoop, List.range_succ]
  | succ m ih =>
      intro xa x y
      have hcond : (0 : ℚ) + 1 > 1 / 2 := by norm_num
      have hya : (0 : ℚ) + 1 - 1 = 0 := by norm_num
      conv_lhs => rw [lineLoop]
      simp only [if_pos hcond, hya, List.map_cons]
      rw [ih]
      conv_rhs => rw [show m + 1 + 1 = (m + 1) + 1 from rfl, List.range_succ_eq_map]
      rw [List.map_cons, List.map_map]
      congr 1
      · norm_num
      · exact List.map_congr_left (fun k _ => by simp only [Function.comp]; push_cast; ring)

/-- a run whose major axis is x paints pairwise distinct pixels. -/
theorem lineLoop_nodup_fst (n : ℕ) (ys ya : ℚ) (xis yis x y : ℤ) (hxis : xis ≠ 0) :
    (lineLoop n 1 ys 0 ya xis yis x y).Nodup := by
  apply List.Nodup.of_map Prod.fst
  rw [lineLoop_fst_map]
  refine List.Nodup.map ?_ (List.nodup_range _)
  intro a b hab
  simp only at hab
  have h1 : ((a : ℤ)) * xis = (b : ℤ) * xis := by linarith
  have h2 : ((a : ℤ)) = (b : ℤ) := mul_right_cancel₀ hxis h1
  exact_mod_cast h2

/-- a run whose major axis is y paints pairwise distinct pixels. -/
theorem lineLoop_nodup_snd (n : ℕ) (xs xa : ℚ) (xis yis x y : ℤ) (hyis : yis ≠ 0) :
    (lineLoop n xs 1 xa 0 xis yis x y).Nodup := by
  apply List.Nodup.of_map Prod.snd
  rw [lineLoop_snd_map]
  refine List.Nodup.map ?_ (List.nodup_range _)
  intro a b hab
  simp only at hab
  have h1 : ((a : ℤ)) * yis = (b : ℤ) * yis := by linarith
  have h2 : ((a : ℤ)) = (b : ℤ) := mul_right_cancel₀ hyis h1
  exact_mod_cast h2

/-- C8 counterexample: the claim says the painted set is identical
under swapping the endpoints.  For the endpoints (0,0) and (2,1) the
forward run paints (1,0) but the reversed run does not (it paints
(1,1) instead): the accumulated error crosses the 1/2 threshold at
different columns in the two directions. -/
theorem line_endpoint_swap_asymmetric :
    (1, 0) ∈ Renderer.line 0 0 2 1 ∧ (1, 0) ∉ Renderer.line 2 1 0 0 := by
  with_unfolding_all decide

/-- C8 amended: the line primitive paints exactly
`max |x1 - x0| |y1 - y0| + 1` pixels, all pairwise distinct, and
degenerates to the single pixel `(x0, y0)` when the endpoints coincide;
but the painted set is not in general invariant under swapping the two
endpoints (the counterexample above). -/
theorem line_paint_count (x0 y0 x1 y1 : ℤ) :
    (Renderer.line x0 y0 x1 y1).length = max (x1 - x0).natAbs (y1 - y0).natAbs + 1 ∧
    (Renderer.line x0 y0 x1 y1).Nodup ∧
    Renderer.line x0 y0 x0 y0 = [(x0, y0)] := by
  refine ⟨?_, ?_, ?_⟩
  · simp only [Renderer.line]
    exact lineLoop_length _ _ _ _ _ _ _ _ _
  · simp only [Renderer.line]
    by_cases h0 : max (x1 - x0).natAbs (y1 - y0).natAbs = 0
    · rw [h0]
      simp [lineLoop]
    · rcases le_total (y1 - y0).natAbs (x1 - x0).natAbs with hle | hle
      · have hmax : max (x1 - x0).natAbs (y1 - y0).natAbs = (x1 - x0).natAbs :=
          max_eq_left hle
        have hne : (x1 - x0).natAbs ≠ 0 := by omega
        have hdx : x1 - x0 ≠ 0 := by
          intro hz
          rw [hz] at hne
          simp at hne
        have hxs : |((x1 - x0 : ℤ) : ℚ)| / ((max (x1 - x0).natAbs (y1 - y0).natAbs : ℕ) : ℚ)
            = 1 := by
          have habs : |((x1 - x0 : ℤ) : ℚ)| = (((x1 - x0).natAbs : ℕ) : ℚ) := by
            rw [Int.cast_natAbs, Int.cast_abs]
          rw [hmax, habs]
          exact div_self (by exact_mod_cast hne)
        rw [hxs]
        exact lineLoop_nodup_fst _ _ _ _ _ _ _ (by simpa [Int.sign_eq_zero_iff_zero] using hdx)
      · have hmax : max (x1 - x0).natAbs (y1 - y0).natAbs = (y1 - y0).natAbs :=
          max_eq_right hle
        have hne : (y1 - y0).natAbs ≠ 0 := by omega
        have hdy : y1 - y0 ≠ 0 := by
          intro hz
          rw [hz] at hne
          simp at hne
        have hys : |((y1 - y0 : ℤ) : ℚ)| / ((max (x1 - x0).natAbs (y1 - y0).natAbs : ℕ) : ℚ)
            = 1 := by
          have habs : |((y1 - y0 : ℤ) : ℚ)| = (((y1 - y0).natAbs : ℕ) : ℚ) := by
            rw [Int.cast_natAbs, Int.cast_abs]
          rw [hmax, habs]
          exact div_self (by exact_mod_cast hne)
        rw [hys]
        exact lineLoop_nodup_snd _ _ _ _ _ _ _ (by simpa [Int.sign_eq_zero_iff_zero] using hdy)
  · simp [Renderer.line, lineLoop]

/-! ## C9 : the mesh loader and malformed numeric tokens -/

/-- when any of the first `n` tokens of a line is present but fails to
parse, the token loop of the loader gives up on the whole line. -/
theorem readTokens_none :
    ∀ (j n : ℕ) (toks : List (Option ℚ)), j < n → toks[j]? = some none →
      readTokens n toks = none := by
  intro j
  induction j with
  | zero =>
      intro n toks hj htok
      match n, toks with
      | n + 1, [] => simp at htok
      | n + 1, none :: rest => rfl
      | n + 1, some v :: rest => simp at htok
  | succ i ih =>
      intro n toks hj htok
      match n, toks with
      | n + 1, [] => simp at htok
      | n + 1, none :: rest => rfl
      | n + 1, some v :: rest =>
          have htok2 : rest[i]? = some none := by simpa using htok
          simp [readTokens, ih n rest (by omega) htok2]

/-- C9 counterexample: the claim says a failed numeric token is
replaced by the default 0.0 and the datum is still recorded.  Feeding
the loader a `v ` line whose first token fails to parse (tokens
`[none, some 1, some 2]`) records nothing: the model is returned
unchanged, not extended with the vertex (0, 1, 2) the claim predicts. -/
theorem loadLine_bad_token_drops_datum :
    Model.loadLine emptyModel (ObjLine.v [none, some 1, some 2]) = Except.ok emptyModel ∧
      Model.loadLine emptyModel (ObjLine.v [none, some 1, some 2])
        ≠ Except.ok ⟨[⟨0, 1, 2⟩], [], []⟩ := by
  with_unfolding_all decide

/-- C9 amended: a numeric token of a `v ` or `vt ` line that fails to
parse makes the loader skip the entire line, exactly as it does for a
line with insufficient tokens; the datum is not recorded, no default is
substituted, and the load is not aborted (the line handler still
returns successfully). -/
theorem loadLine_parse_failure_skips (m : Model) (toks : List (Option ℚ)) (j : ℕ) :
    (j < 3 → toks[j]? = some none → Model.loadLine m (ObjLine.v toks) = Except.ok m) ∧
    (j < 2 → toks[j]? = some none → Model.loadLine m (ObjLine.vt toks) = Except.ok m) := by
  constructor
  · intro hj htok
    simp only [Model.loadLine, readTokens_none j 3 toks hj htok]
  · intro hj htok
    simp only [Model.loadLine, readTokens_none j 2 toks hj htok]

/-- C9 witness: a `v ` line whose second token fails to parse is
skipped and the model survives unchanged. -/
theorem loadLine_parse_failure_skips_witness :
    Model.loadLine emptyModel (ObjLine.v [some 1, none, some 2]) = Except.ok emptyModel :=
  (loadLine_parse_failure_skips emptyModel [some 1, none, some 2] 1).1 (by decide) rfl
